import Mathlib

/-!
Shallow embedding of `src/streamlit_app.py`, the investment portfolio
simulator.  Dates are modelled as integers (days); monetary values and
prices as rationals.  The pandas return columns can hold the float
specials `NaN` and `inf`, modelled by the type `FVal`; the simulation
loop itself is embedded as a fold over the rows of the merged frame.
-/

namespace InvestmentSim

/-- Extended value for the derived return columns: `pct_change` produces
`NaN` on the first row and on 0/0, and `inf` on nonzero/0; `fillna(0)`
replaces only `NaN`. -/
inductive FVal where
  | nan : FVal
  | inf : FVal
  | val : ℚ → FVal
deriving Repr, DecidableEq

/-- Float division as performed inside `pct_change`: a zero divisor gives
`NaN` when the dividend is also zero and `inf` otherwise. -/
def fdiv (a b : ℚ) : FVal :=
  if b = 0 then (if a = 0 then .nan else .inf) else .val (a / b)

/-- Multiplication of an extended value by a rational scalar (the leverage
factor of lines 91 and 93); `inf * 0` is `NaN` in float arithmetic. -/
def fmul (l : ℚ) : FVal → FVal
  | .nan => .nan
  | .inf => if l = 0 then .nan else .inf
  | .val q => .val (q * l)

/-- Embeds `Series.pct_change()` on the `Close` column: entry 0 is `NaN`;
entry i (i ≥ 1) is `(close[i] - close[i-1]) / close[i-1]` with float
division semantics. -/
def pctChange (c : List ℚ) : List FVal :=
  match c with
  | [] => []
  | x :: xs => .nan :: List.zipWith (fun prev cur => fdiv (cur - prev) prev) (x :: xs) xs

/-- Embeds `.fillna(0)`: replaces `NaN` (and only `NaN`) by 0. -/
def fillna0 : FVal → FVal
  | .nan => .val 0
  | v => v

/-- Embeds line 90/92: `df['Daily Return'] = df['Close'].pct_change().fillna(0)`. -/
def dailyReturns (c : List ℚ) : List FVal := (pctChange c).map fillna0

/-- Embeds line 91/93: the leveraged return column, `Daily Return * leverage`. -/
def leveragedReturns (c : List ℚ) (lev : ℚ) : List FVal :=
  (dailyReturns c).map (fmul lev)

/-- One sliding pass of the rolling mean: `seen` holds the prices already
processed, most recent first; each output entry averages the `w` most
recent prices seen so far (all of them while fewer than `w` exist). -/
def rollingMeanGo (w : ℕ) (seen : List ℚ) : List ℚ → List ℚ
  | [] => []
  | x :: xs =>
    ((((x :: seen).take w).sum) / (((x :: seen).take w).length : ℚ)) ::
      rollingMeanGo w (x :: seen) xs

/-- Embeds line 96: `df['Close'].rolling(window=w, min_periods=1).mean()`
(the source uses w = 90). -/
def rollingMean (w : ℕ) (c : List ℚ) : List ℚ := rollingMeanGo w [] c

/-- One row of the merged frame `df_combined` (line 99): trading date, the
two leveraged-return columns, the QQQ close and its 90-day average.  The
simulation-level claims quantify over already-computed finite columns, so
the return fields are plain rationals here. -/
structure Row where
  date : ℤ
  retQQQ : ℚ
  retTLT : ℚ
  close : ℚ
  avg90 : ℚ
deriving Repr, DecidableEq

/-- The user inputs consumed by the simulation loop (lines 60–84):
`qqqWeight` is a percentage (the TLT weight is `100 - qqqWeight`, line 65);
`freqDays` is 7, 30 or 90 (line 105); `waitingWeeks` is the conditional
cooldown in weeks (line 80); `startDate` is the selected start timestamp. -/
structure Params where
  initialInvestment : ℚ
  recurringAmount : ℚ
  freqDays : ℤ
  qqqWeight : ℚ
  useConditional : Bool
  conditionalInvestmentAmount : ℚ
  percentageDecrease : ℚ
  waitingWeeks : ℤ
  startDate : ℤ
deriving Repr, DecidableEq

/-- The mutable loop state of lines 105–112: the running portfolio value,
the recurring-investment threshold `current_date`, the date of the last
conditional investment, and the contribution totals, counts and dates. -/
structure SimState where
  value : ℚ
  currentDate : ℤ
  lastConditionalInvestmentDate : ℤ
  recurringInvestmentTotal : ℚ
  recurringInvestmentCount : ℕ
  conditionalInvestmentTotal : ℚ
  conditionalInvestmentCount : ℕ
  conditionalInvestmentDates : List ℤ
deriving Repr, DecidableEq

/-- Embeds lines 102–112: the portfolio value starts at the initial
investment, `current_date = start_date + frequency_days` (line 105),
`last_conditional_investment_date = start_date - 365 days` (line 106), and
all totals are zeroed. -/
def initState (p : Params) : SimState :=
  { value := p.initialInvestment
    currentDate := p.startDate + p.freqDays
    lastConditionalInvestmentDate := p.startDate - 365
    recurringInvestmentTotal := 0
    recurringInvestmentCount := 0
    conditionalInvestmentTotal := 0
    conditionalInvestmentCount := 0
    conditionalInvestmentDates := [] }

/-- The day multiplier of lines 119–122:
`1 + (qqq_weight/100) * qqq_return + (tlt_weight/100) * tlt_return`
with `tlt_weight = 100 - qqq_weight`. -/
def dayMultiplier (qqqWeight retQQQ retTLT : ℚ) : ℚ :=
  1 + qqqWeight / 100 * retQQQ + (100 - qqqWeight) / 100 * retTLT

/-- Embeds one iteration of the loop body, lines 114–139: compound by the
day multiplier; if today has reached `current_date`, add the recurring
amount and advance `current_date` by the frequency; then, if conditional
investment is enabled and the close is strictly below
`(1 - percentage_decrease/100) * 90_day_avg` and at least
`waiting_weeks * 7` days have passed since the last conditional
investment, add the conditional amount and set the last conditional date
to today. -/
def step (p : Params) (s : SimState) (r : Row) : SimState :=
  let v1 := s.value * dayMultiplier p.qqqWeight r.retQQQ r.retTLT
  let s1 : SimState :=
    if r.date ≥ s.currentDate then
      { s with
          value := v1 + p.recurringAmount
          recurringInvestmentTotal := s.recurringInvestmentTotal + p.recurringAmount
          recurringInvestmentCount := s.recurringInvestmentCount + 1
          currentDate := s.currentDate + p.freqDays }
    else { s with value := v1 }
  if p.useConditional = true ∧ r.close < (1 - p.percentageDecrease / 100) * r.avg90 then
    if r.date - s1.lastConditionalInvestmentDate ≥ p.waitingWeeks * 7 then
      { s1 with
          value := s1.value + p.conditionalInvestmentAmount
          conditionalInvestmentTotal :=
            s1.conditionalInvestmentTotal + p.conditionalInvestmentAmount
          conditionalInvestmentCount := s1.conditionalInvestmentCount + 1
          conditionalInvestmentDates := s1.conditionalInvestmentDates ++ [r.date]
          lastConditionalInvestmentDate := r.date }
    else s1
  else s1

/-- Runs the loop over the rows after the first, returning the portfolio
value written to each of those rows together with the final state. -/
def simAux (p : Params) (s : SimState) : List Row → List ℚ × SimState
  | [] => ([], s)
  | r :: rs =>
    let s1 := step p s r
    let rest := simAux p s1 rs
    (s1.value :: rest.1, rest.2)

/-- Embeds the whole simulation, lines 102–139: the resulting
`Portfolio Value` column (the trajectory) and the final accumulator state.
Row 0 keeps the initial investment because the loop starts at index 1; an
empty merged frame yields an empty column and an untouched state. -/
def simulate (p : Params) : List Row → List ℚ × SimState
  | [] => ([], initState p)
  | _ :: rs =>
    let res := simAux p (initState p) rs
    (p.initialInvestment :: res.1, res.2)

/-- Embeds line 169: `df_combined.iloc[-1]['Portfolio Value']`; `iloc[-1]`
on an empty frame raises IndexError, modelled as `none`. -/
def finalValue (p : Params) (rows : List Row) : Option ℚ :=
  (simulate p rows).1.getLast?

/-- Embeds line 170:
`initial_investment + recurring_investment_total + conditional_investment_total`. -/
def totalInvestment (p : Params) (rows : List Row) : ℚ :=
  p.initialInvestment + (simulate p rows).2.recurringInvestmentTotal +
    (simulate p rows).2.conditionalInvestmentTotal

/-- Embeds line 175:
`((final_value - total_investment) / total_investment) * 100`.  Python
float division raises ZeroDivisionError on a zero divisor, modelled as
`none`; the IndexError of line 169 likewise propagates as `none`. -/
def totalReturnPct (p : Params) (rows : List Row) : Option ℚ :=
  match finalValue p rows with
  | none => none
  | some fv =>
      if totalInvestment p rows = 0 then none
      else some ((fv - totalInvestment p rows) / totalInvestment p rows * 100)

/-- Follows the spec's words (§4.3), not the source, for comparison with
the source's behaviour: counts recurring events under the policy in which
the event fires when `today ≥ last_recurring_date + frequency_days` and on
fire `last_recurring_date` advances to `today`, with
`last_recurring_date` initialized one year before the start date.  Like
the source's loop, the first row is not processed. -/
def specRelGo (freqDays : ℤ) : ℕ → ℤ → List ℤ → ℕ
  | n, _, [] => n
  | n, last, d :: ds =>
    if d ≥ last + freqDays then specRelGo freqDays (n + 1) d ds
    else specRelGo freqDays n last ds

/-- Event count of the spec's relative-cadence recurring policy over the
dates of the frame (the first date, like row 0 of the loop, is skipped). -/
def specRelativeRecurringCount (startDate freqDays : ℤ) (dates : List ℤ) : ℕ :=
  specRelGo freqDays 0 (startDate - 365) (dates.drop 1)

/-- A frame row with the given date, zero returns, and the given close and
90-day average. -/
def mkRow (d : ℤ) (close avg : ℚ) : Row :=
  { date := d, retQQQ := 0, retTLT := 0, close := close, avg90 := avg }

/-- Consecutive trading days 0, 1, …, n-1 with constant price 100. -/
def dailyRows (n : ℕ) : List Row :=
  (List.range n).map fun k => mkRow k 100 100

/-- Baseline inputs: weekly cadence from day 0, equal weights, no
contributions, conditional investing disabled. -/
def pBase : Params :=
  { initialInvestment := 1000
    recurringAmount := 0
    freqDays := 7
    qqqWeight := 50
    useConditional := false
    conditionalInvestmentAmount := 0
    percentageDecrease := 0
    waitingWeeks := 0
    startDate := 0 }

/-- Baseline inputs with a weekly recurring contribution of 100. -/
def pRecurring : Params := { pBase with recurringAmount := 100 }

/-- Rows with an irregular gap: days 0, 10 and 15. -/
def rowsGap : List Row := [mkRow 0 100 100, mkRow 10 100 100, mkRow 15 100 100]

/-- Two consecutive trading days, 0 and 1. -/
def rowsTwoDays : List Row := [mkRow 0 100 100, mkRow 1 100 100]

/-- Three days whose last two close 20% below the 90-day average. -/
def rowsBreach : List Row := [mkRow 0 100 100, mkRow 1 80 100, mkRow 2 80 100]

/-- Conditional investing enabled: amount 500, 10% discount trigger,
one-week cooldown. -/
def pCooldown1 : Params :=
  { pBase with
      useConditional := true
      conditionalInvestmentAmount := 500
      percentageDecrease := 10
      waitingWeeks := 1 }

/-- Same as `pCooldown1` but with a zero-week cooldown. -/
def pCooldown0 : Params := { pCooldown1 with waitingWeeks := 0 }

/-- All contribution amounts and the initial investment set to zero. -/
def pZero : Params := { pBase with initialInvestment := 0 }

/-! ## Theorems -/

/-- C1 counterexample: on the irregular dates 0, 10, 15 with weekly
frequency, the source's loop produces two recurring events (the second
only five days after the first actual contribution), while the claimed
relative cadence — `last_recurring_date` advancing to the actual
contribution day — produces exactly one. -/
theorem recurring_cadence_grid_not_relative :
    (simulate pRecurring rowsGap).2.recurringInvestmentCount = 2 ∧
    specRelativeRecurringCount pRecurring.startDate pRecurring.freqDays
      (rowsGap.map Row.date) = 1 ∧ (2 : ℕ) ≠ 1 :=
  ⟨by decide, by decide, by decide⟩

/-- C1 amended: the recurring event fires exactly when today has reached
the running threshold `current_date`, and on firing the threshold
advances by exactly `frequency_days` (a fixed grid anchored at
`start_date + frequency_days`), not to the contribution day; over a
gapless run of 21 simulated days at weekly frequency the event count is
`21 / 7 = 3`. -/
theorem recurring_event_fixed_grid :
    (∀ (p : Params) (s : SimState) (r : Row),
        ((step p s r).recurringInvestmentCount = s.recurringInvestmentCount + 1 ↔
          r.date ≥ s.currentDate) ∧
        (step p s r).currentDate =
          (if r.date ≥ s.currentDate then s.currentDate + p.freqDays else s.currentDate)) ∧
    (simulate pRecurring (dailyRows 22)).2.recurringInvestmentCount = 21 / 7 := by
  constructor
  · intro p s r
    unfold step
    by_cases h1 : r.date ≥ s.currentDate <;>
      by_cases hu : p.useConditional = true <;>
        by_cases hc : r.close < (1 - p.percentageDecrease / 100) * r.avg90 <;>
          by_cases hw : r.date - s.lastConditionalInvestmentDate ≥ p.waitingWeeks * 7 <;>
            simp [h1, hu, hc, hw]
  · decide

/-- C2: every loop iteration sets the day's portfolio value to the
previous value times
`1 + (qqq_weight/100) * qqq_return + ((100-qqq_weight)/100) * tlt_return`
before any contribution is added (the contributions enter additively
afterwards); and for weights 0.5/0.5, leverages 3 and 1, and daily
returns +0.02 and -0.01 the day multiplier is exactly 1.025. -/
theorem compounding_step_multiplier :
    (∀ (p : Params) (s : SimState) (r : Row),
        (step p s r).value =
          s.value * dayMultiplier p.qqqWeight r.retQQQ r.retTLT +
            (if r.date ≥ s.currentDate then p.recurringAmount else 0) +
            (if p.useConditional = true ∧
                r.close < (1 - p.percentageDecrease / 100) * r.avg90 ∧
                r.date - s.lastConditionalInvestmentDate ≥ p.waitingWeeks * 7 then
              p.conditionalInvestmentAmount else 0)) ∧
    dayMultiplier 50 (3 * (2 / 100)) (1 * (-(1 / 100))) = 1025 / 1000 := by
  constructor
  · intro p s r
    unfold step
    by_cases h1 : r.date ≥ s.currentDate <;>
      by_cases hu : p.useConditional = true <;>
        by_cases hc : r.close < (1 - p.percentageDecrease / 100) * r.avg90 <;>
          by_cases hw : r.date - s.lastConditionalInvestmentDate ≥ p.waitingWeeks * 7 <;>
            simp [h1, hu, hc, hw]
  · norm_num [dayMultiplier]

/-- C3: a conditional contribution fires on a day exactly when conditional
investing is enabled, the close is strictly below
`(1 - trigger_discount_pct/100)` times the rolling statistic, and at
least `waiting_weeks * 7` days have elapsed since the last conditional
event; on firing the last conditional date becomes today, otherwise it is
unchanged.  Consequently, on two consecutive breaching days the run with
a one-week cooldown produces exactly one conditional event and the run
with a zero cooldown exactly two. -/
theorem conditional_fire_iff_and_cooldown :
    (∀ (p : Params) (s : SimState) (r : Row),
        ((step p s r).conditionalInvestmentCount = s.conditionalInvestmentCount + 1 ↔
          (p.useConditional = true ∧
            r.close < (1 - p.percentageDecrease / 100) * r.avg90 ∧
            r.date - s.lastConditionalInvestmentDate ≥ p.waitingWeeks * 7)) ∧
        (step p s r).lastConditionalInvestmentDate =
          (if p.useConditional = true ∧
              r.close < (1 - p.percentageDecrease / 100) * r.avg90 ∧
              r.date - s.lastConditionalInvestmentDate ≥ p.waitingWeeks * 7 then
            r.date else s.lastConditionalInvestmentDate)) ∧
    (simulate pCooldown1 rowsBreach).2.conditionalInvestmentCount = 1 ∧
    (simulate pCooldown0 rowsBreach).2.conditionalInvestmentCount = 2 := by
  refine ⟨fun p s r => ?_, ?_, ?_⟩
  · unfold step
    by_cases h1 : r.date ≥ s.currentDate <;>
      by_cases hu : p.useConditional = true <;>
        by_cases hc : r.close < (1 - p.percentageDecrease / 100) * r.avg90 <;>
          by_cases hw : r.date - s.lastConditionalInvestmentDate ≥ p.waitingWeeks * 7 <;>
            simp [h1, hu, hc, hw]
  · norm_num [simulate, simAux, step, pCooldown1, pBase, rowsBreach, mkRow,
      initState, dayMultiplier]
  · norm_num [simulate, simAux, step, pCooldown0, pCooldown1, pBase, rowsBreach, mkRow,
      initState, dayMultiplier]

/-- Helper: the recurring event count written by one loop iteration. -/
theorem step_recCount (p : Params) (s : SimState) (r : Row) :
    (step p s r).recurringInvestmentCount =
      (if r.date ≥ s.currentDate then s.recurringInvestmentCount + 1
       else s.recurringInvestmentCount) := by
  unfold step
  by_cases hd : r.date ≥ s.currentDate <;>
    by_cases hu : p.useConditional = true <;>
      by_cases hc : r.close < (1 - p.percentageDecrease / 100) * r.avg90 <;>
        by_cases hw : r.date - s.lastConditionalInvestmentDate ≥ p.waitingWeeks * 7 <;>
          simp [hd, hu, hc, hw]

/-- Helper: the recurring total written by one loop iteration. -/
theorem step_recTotal (p : Params) (s : SimState) (r : Row) :
    (step p s r).recurringInvestmentTotal =
      (if r.date ≥ s.currentDate then s.recurringInvestmentTotal + p.recurringAmount
       else s.recurringInvestmentTotal) := by
  unfold step
  by_cases hd : r.date ≥ s.currentDate <;>
    by_cases hu : p.useConditional = true <;>
      by_cases hc : r.close < (1 - p.percentageDecrease / 100) * r.avg90 <;>
        by_cases hw : r.date - s.lastConditionalInvestmentDate ≥ p.waitingWeeks * 7 <;>
          simp [hd, hu, hc, hw]

/-- Helper: the conditional event count written by one loop iteration. -/
theorem step_condCount (p : Params) (s : SimState) (r : Row) :
    (step p s r).conditionalInvestmentCount =
      (if p.useConditional = true ∧ r.close < (1 - p.percentageDecrease / 100) * r.avg90 ∧
          r.date - s.lastConditionalInvestmentDate ≥ p.waitingWeeks * 7 then
        s.conditionalInvestmentCount + 1
       else s.conditionalInvestmentCount) := by
  unfold step
  by_cases hd : r.date ≥ s.currentDate <;>
    by_cases hu : p.useConditional = true <;>
      by_cases hc : r.close < (1 - p.percentageDecrease / 100) * r.avg90 <;>
        by_cases hw : r.date - s.lastConditionalInvestmentDate ≥ p.waitingWeeks * 7 <;>
          simp [hd, hu, hc, hw]

/-- Helper: the conditional total written by one loop iteration. -/
theorem step_condTotal (p : Params) (s : SimState) (r : Row) :
    (step p s r).conditionalInvestmentTotal =
      (if p.useConditional = true ∧ r.close < (1 - p.percentageDecrease / 100) * r.avg90 ∧
          r.date - s.lastConditionalInvestmentDate ≥ p.waitingWeeks * 7 then
        s.conditionalInvestmentTotal + p.conditionalInvestmentAmount
       else s.conditionalInvestmentTotal) := by
  unfold step
  by_cases hd : r.date ≥ s.currentDate <;>
    by_cases hu : p.useConditional = true <;>
      by_cases hc : r.close < (1 - p.percentageDecrease / 100) * r.avg90 <;>
        by_cases hw : r.date - s.lastConditionalInvestmentDate ≥ p.waitingWeeks * 7 <;>
          simp [hd, hu, hc, hw]

/-- C4 (evidence for the code bug): with a zero initial investment, no
recurring contribution and conditional investing disabled, the run
completes with `total_investment = 0`, and the total-return computation
of line 175 divides by zero — modelled as `none` — instead of reporting a
total return of 0. -/
theorem zero_total_investment_division :
    totalInvestment pZero rowsTwoDays = 0 ∧ totalReturnPct pZero rowsTwoDays = none := by
  constructor <;>
    norm_num [totalInvestment, totalReturnPct, finalValue, simulate, simAux, step,
      pZero, pBase, rowsTwoDays, mkRow, initState, dayMultiplier]

/-- C5: on an empty date-aligned frame the loop body never runs, the
trajectory is empty, the accumulator state is untouched, and
finalization fails (the `iloc[-1]` lookup, modelled as `none`), so no
final value, totals or return are produced. -/
theorem empty_range_aborts :
    ∀ p : Params,
      (simulate p []).1 = [] ∧ (simulate p []).2 = initState p ∧
        finalValue p [] = none ∧ totalReturnPct p [] = none := by
  intro p
  exact ⟨rfl, rfl, rfl, rfl⟩

/-- C8 counterexample: on two consecutive trading days with a weekly
recurring contribution, day 1 is eligible under the claimed far-in-the-
past initialization (it satisfies `today ≥ (start_date - 365) + 7`, and
the spec's relative policy fires once), but the source's loop fires no
recurring event because its threshold is initialized to
`start_date + frequency_days`, one full period after the start. -/
theorem first_day_recurring_not_immediate :
    (simulate pRecurring rowsTwoDays).2.recurringInvestmentCount = 0 ∧
    ((1 : ℤ) ≥ (pRecurring.startDate - 365) + pRecurring.freqDays) ∧
    specRelativeRecurringCount pRecurring.startDate pRecurring.freqDays
      (rowsTwoDays.map Row.date) = 1 :=
  ⟨by decide, by decide, by decide⟩

/-- C8 amended: `last_conditional_investment_date` is initialized to
`start_date - 365` days, far enough in the past that the cooldown never
blocks the first eligible day (for any waiting period up to 52 weeks);
but the recurring threshold `current_date` is initialized to
`start_date + frequency_days`, so no recurring contribution fires before
one full frequency period has elapsed since the start date. -/
theorem init_state_blocks_first_recurring_only :
    (∀ p : Params,
        (initState p).lastConditionalInvestmentDate = p.startDate - 365 ∧
        (initState p).currentDate = p.startDate + p.freqDays) ∧
    (∀ (p : Params) (d : ℤ), d ≥ p.startDate → p.waitingWeeks ≤ 52 →
        d - (initState p).lastConditionalInvestmentDate ≥ p.waitingWeeks * 7) ∧
    (∀ (p : Params) (r : Row), r.date < p.startDate + p.freqDays →
        (step p (initState p) r).recurringInvestmentCount = 0) := by
  refine ⟨fun p => ⟨rfl, rfl⟩, fun p d h1 h2 => ?_, fun p r h => ?_⟩
  · simp only [initState]
    omega
  · rw [step_recCount, if_neg]
    · rfl
    · simp only [initState]
      omega

/-- Witness for the C8 amended theorem at concrete inputs: day 5 with the
baseline parameters clears the conditional cooldown, and day 1 (before
`start_date + 7`) fires no recurring event. -/
theorem init_state_blocks_first_recurring_only_witness :
    ((5 : ℤ) - (initState pBase).lastConditionalInvestmentDate ≥ pBase.waitingWeeks * 7) ∧
    (step pBase (initState pBase) (mkRow 1 100 100)).recurringInvestmentCount = 0 :=
  ⟨init_state_blocks_first_recurring_only.2.1 pBase 5 (by decide) (by decide),
   init_state_blocks_first_recurring_only.2.2 pBase (mkRow 1 100 100) (by decide)⟩

/-- C9: the simulation is a pure function of its inputs — identical
parameters and identical aligned frames yield identical trajectories and
identical final accumulator states. -/
theorem simulate_deterministic :
    ∀ (p₁ p₂ : Params) (rows₁ rows₂ : List Row),
      p₁ = p₂ → rows₁ = rows₂ → simulate p₁ rows₁ = simulate p₂ rows₂ := by
  intro p₁ p₂ rows₁ rows₂ hp hr
  rw [hp, hr]

/-- Witness for C9 at a concrete input. -/
theorem simulate_deterministic_witness :
    simulate pBase rowsTwoDays = simulate pBase rowsTwoDays :=
  simulate_deterministic pBase pBase rowsTwoDays rowsTwoDays rfl rfl

/-- Helper: one loop iteration preserves the invariant that each running
total equals the corresponding amount times the event count. -/
theorem step_totals (p : Params) (s : SimState) (r : Row)
    (h1 : s.recurringInvestmentTotal = p.recurringAmount * s.recurringInvestmentCount)
    (h2 : s.conditionalInvestmentTotal =
      p.conditionalInvestmentAmount * s.conditionalInvestmentCount) :
    (step p s r).recurringInvestmentTotal =
      p.recurringAmount * (step p s r).recurringInvestmentCount ∧
    (step p s r).conditionalInvestmentTotal =
      p.conditionalInvestmentAmount * (step p s r).conditionalInvestmentCount := by
  rw [step_recCount, step_recTotal, step_condCount, step_condTotal]
  constructor <;> split_ifs <;> simp only [h1, h2] <;> push_cast <;> ring

/-- Helper: the totals invariant propagates through the whole loop. -/
theorem simAux_totals (p : Params) (rows : List Row) :
    ∀ s : SimState,
      s.recurringInvestmentTotal = p.recurringAmount * s.recurringInvestmentCount →
      s.conditionalInvestmentTotal =
        p.conditionalInvestmentAmount * s.conditionalInvestmentCount →
      (simAux p s rows).2.recurringInvestmentTotal =
          p.recurringAmount * (simAux p s rows).2.recurringInvestmentCount ∧
        (simAux p s rows).2.conditionalInvestmentTotal =
          p.conditionalInvestmentAmount * (simAux p s rows).2.conditionalInvestmentCount := by
  induction rows with
  | nil => exact fun s h1 h2 => ⟨h1, h2⟩
  | cons r rs ih =>
      intro s h1 h2
      have h := step_totals p s r h1 h2
      simpa [simAux] using ih (step p s r) h.1 h.2

/-- C10: the first trajectory entry is exactly the initial investment and
receives no contribution whatever the policy (the loop starts at index
1); and at the end of any run each contribution total equals the
configured amount times the number of events of that kind. -/
theorem first_day_untouched_and_totals :
    (∀ (p : Params) (rows : List Row), rows ≠ [] →
        (simulate p rows).1.head? = some p.initialInvestment) ∧
    (∀ (p : Params) (rows : List Row),
        (simulate p rows).2.recurringInvestmentTotal =
          p.recurringAmount * (simulate p rows).2.recurringInvestmentCount ∧
        (simulate p rows).2.conditionalInvestmentTotal =
          p.conditionalInvestmentAmount * (simulate p rows).2.conditionalInvestmentCount) := by
  constructor
  · intro p rows h
    cases rows with
    | nil => exact absurd rfl h
    | cons r rs => simp [simulate]
  · intro p rows
    cases rows with
    | nil => simp [simulate, initState]
    | cons r rs =>
        have h := simAux_totals p rs (initState p) (by simp [initState]) (by simp [initState])
        simpa [simulate] using h

/-- Witness for C10 at a concrete input: a two-day run starts at the
initial investment. -/
theorem first_day_untouched_and_totals_witness :
    (simulate pBase rowsTwoDays).1.head? = some pBase.initialInvestment :=
  first_day_untouched_and_totals.1 pBase rowsTwoDays (by simp [rowsTwoDays])


/-- C6 counterexample: on the price series 0, 1 the prior close of day 1
is zero, and the computed daily return is the float infinity that
`pct_change` produces and `fillna(0)` does not replace — not 0. -/
theorem zero_prior_close_return_not_zero :
    dailyReturns [0, 1] = [.val 0, .inf] ∧ FVal.inf ≠ FVal.val 0 := by
  refine ⟨?_, by decide⟩
  norm_num [dailyReturns, pctChange, fdiv, fillna0]

/-- Helper: the return column at a successor index is the float division
of the close difference by the prior close. -/
theorem dailyReturns_getElem_succ (cs : List ℚ) (i : ℕ) (a b : ℚ)
    (ha : cs[i]? = some a) (hb : cs[i + 1]? = some b) :
    (dailyReturns cs)[i + 1]? = some (fillna0 (fdiv (b - a) a)) := by
  cases cs with
  | nil => simp at ha
  | cons x xs =>
      have hxs : xs[i]? = some b := by simpa using hb
      simp [dailyReturns, pctChange, List.getElem?_zipWith', ha, hxs]

/-- C6 amended: the daily-return column has one entry per close; entry 0
is 0; entry i ≥ 1 is `(close[i] - close[i-1]) / close[i-1]` whenever the
prior close is nonzero; when the prior close is zero the entry is 0 only
if the current close is also zero (the NaN that `fillna` replaces), and
is the float infinity otherwise — no data-quality warning exists; the
leveraged column is the daily-return column scaled entrywise, exactly, by
the leverage factor. -/
theorem daily_return_formula :
    (∀ cs : List ℚ, (dailyReturns cs).length = cs.length) ∧
    (∀ (x : ℚ) (xs : List ℚ), (dailyReturns (x :: xs))[0]? = some (.val 0)) ∧
    (∀ (cs : List ℚ) (i : ℕ) (a b : ℚ), cs[i]? = some a → cs[i + 1]? = some b → a ≠ 0 →
        (dailyReturns cs)[i + 1]? = some (.val ((b - a) / a))) ∧
    (∀ (cs : List ℚ) (i : ℕ) (b : ℚ), cs[i]? = some 0 → cs[i + 1]? = some b →
        (dailyReturns cs)[i + 1]? = some (if b = 0 then .val 0 else .inf)) ∧
    (∀ (cs : List ℚ) (lev : ℚ), leveragedReturns cs lev = (dailyReturns cs).map (fmul lev)) ∧
    (∀ (lev q : ℚ), fmul lev (.val q) = .val (q * lev)) := by
  refine ⟨fun cs => ?_, fun x xs => ?_, fun cs i a b ha hb h0 => ?_, fun cs i b ha hb => ?_,
    fun cs lev => rfl, fun lev q => rfl⟩
  · cases cs with
    | nil => rfl
    | cons x xs => simp [dailyReturns, pctChange]
  · simp [dailyReturns, pctChange, fillna0]
  · rw [dailyReturns_getElem_succ cs i a b ha hb]
    simp [fdiv, h0, fillna0]
  · rw [dailyReturns_getElem_succ cs i 0 b ha hb]
    by_cases hb0 : b = 0 <;> simp [fdiv, hb0, fillna0]

/-- Witness for the C6 amended theorem at a concrete input: for closes
4, 5 the day-1 return is (5-4)/4, and scaling 1/4 by leverage 3 is exact. -/
theorem daily_return_formula_witness :
    (dailyReturns [4, 5])[1]? = some (.val ((5 - 4) / 4)) ∧
    fmul 3 (.val (1 / 4)) = .val (1 / 4 * 3) :=
  ⟨daily_return_formula.2.2.1 [4, 5] 0 4 5 rfl rfl (by norm_num),
   daily_return_formula.2.2.2.2.2 3 (1 / 4)⟩

/-- Helper: the sliding pass produces one entry per price. -/
theorem rollingMeanGo_length (w : ℕ) :
    ∀ (cs seen : List ℚ), (rollingMeanGo w seen cs).length = cs.length := by
  intro cs
  induction cs with
  | nil => intro seen; rfl
  | cons x xs ih => intro seen; simp [rollingMeanGo, ih (x :: seen)]

/-- Helper: each entry of the sliding pass averages the `w` most recent
prices, expressed via the reversed processed prefix. -/
theorem rollingMeanGo_getElem (w : ℕ) :
    ∀ (cs seen : List ℚ) (i : ℕ), i < cs.length →
      (rollingMeanGo w seen cs)[i]? =
        some ((((cs.take (i + 1)).reverse ++ seen).take w).sum /
          ((((cs.take (i + 1)).reverse ++ seen).take w).length : ℚ)) := by
  intro cs
  induction cs with
  | nil => intro seen i h; simp at h
  | cons x xs ih =>
      intro seen i h
      cases i with
      | zero => simp [rollingMeanGo]
      | succ n =>
          have h2 : n < xs.length := by simpa using h
          have hwin : ((x :: xs).take (n + 1 + 1)).reverse ++ seen =
              (xs.take (n + 1)).reverse ++ (x :: seen) := by
            simp [List.take_succ_cons, List.reverse_cons, List.append_assoc]
          simp only [rollingMeanGo, List.getElem?_cons_succ, hwin]
          exact ih (x :: seen) n h2

/-- C7: the rolling-mean column (window `w`, `min_periods=1` semantics)
has one entry per close, and entry i equals the mean of
`close[max(0, i-w+1) .. i]` — an expanding window until `w` observations
exist, then a fixed trailing window of exactly `w` entries; every entry,
the first included, averages a nonempty slice of `min (i+1) w` closes. -/
theorem rolling_mean_window (w : ℕ) (cs : List ℚ) (i : ℕ) (hw : 1 ≤ w)
    (hi : i < cs.length) :
    (rollingMean w cs).length = cs.length ∧
    (rollingMean w cs)[i]? =
      some ((((cs.take (i + 1)).drop (i + 1 - w)).sum) /
        ((((cs.take (i + 1)).drop (i + 1 - w)).length : ℚ))) ∧
    ((cs.take (i + 1)).drop (i + 1 - w)).length = min (i + 1) w ∧
    0 < min (i + 1) w := by
  have hlen : (cs.take (i + 1)).length = i + 1 := by
    simp only [List.length_take]
    omega
  refine ⟨rollingMeanGo_length w cs [], ?_, ?_, ?_⟩
  · have h := rollingMeanGo_getElem w cs [] i hi
    have hwin : ((cs.take (i + 1)).reverse ++ ([] : List ℚ)).take w =
        ((cs.take (i + 1)).drop (i + 1 - w)).reverse := by
      rw [List.append_nil, List.take_reverse, hlen]
    unfold rollingMean
    rw [h, hwin]
    simp [List.sum_reverse]
  · simp only [List.length_drop, hlen]
    omega
  · omega


/-- Witness for C7 at a concrete input: window 2 over the closes 1, 2, 3
at index 2 averages the last two closes. -/
theorem rolling_mean_window_witness :
    (rollingMean 2 [(1 : ℚ), 2, 3]).length = ([(1 : ℚ), 2, 3] : List ℚ).length ∧
    (rollingMean 2 [(1 : ℚ), 2, 3])[2]? =
      some ((((([(1 : ℚ), 2, 3] : List ℚ).take 3).drop 1).sum) /
        (((((([(1 : ℚ), 2, 3] : List ℚ).take 3).drop 1)).length : ℚ))) ∧
    ((([(1 : ℚ), 2, 3] : List ℚ).take 3).drop 1).length = min 3 2 ∧
    0 < min 3 2 :=
  rolling_mean_window 2 [1, 2, 3] 2 (by decide) (by decide)

end InvestmentSim
